import Mathlib

/-!
A shallow embedding of `ret_tools.py` (the `ret-tools` package): the result
envelope `RetResp`, the global configuration `RetConfig`, the synchronous and
asynchronous supervisors `run` / `run_async`, the decorators `def_ret` /
`async_ret`, and the scheduler-side wrapping decision of `create_task` /
`wait_task`.

Modelling conventions:
* Exceptions of the host runtime are the opaque data type `Exc`; Python code
  that may raise is embedded as a function into `Except Exc _`.
* The process-wide global `ret_conf` is threaded as an explicit `RetConfig`
  parameter; supervisors read it at dispatch time, which the parameter models.
* Callback invocations are recorded as an explicit `Event` trace so that
  "which hook ran, how often, in which order, with which argument" is provable.
* `run` / `run_async` return `List Event × Except Exc RetResp`: the event
  trace of the hooks that actually ran, and either the returned envelope or
  the exception that propagated out of a hook.
* Mutable-container payloads (the copy-on-read accessor) are modelled
  separately with an explicit heap of container cells, since value semantics
  cannot express aliasing; everywhere else the payload is read by value.
-/

namespace RetTools

/-- An exception value of the host runtime: class name and description.
`run` / `run_async` catch every exception with a bare `except:` clause, so the
embedding treats exceptions as opaque data. -/
structure Exc where
  name : String
  descr : String
deriving DecidableEq

deriving instance DecidableEq for Except

/-- Runtime values. Envelopes occur as a value constructor (`venv`) because an
envelope can itself be the payload of another envelope, which is exactly what
a double-wrapped scheduler outcome looks like. (Container values live in the
separate heap model below, where their aliasing is observable.) -/
inductive Val where
  | vnone : Val
  | vbool : Bool → Val
  | vint : Int → Val
  | vstr : String → Val
  | vexc : Exc → Val
  | venv : Bool → Val → Val → Val → Val
deriving DecidableEq

/-- `RetResp` (source lines 36-41): the result envelope, constructed from
`(success, msg, tb, resp)`. The stored payload `_resp` is read here by value;
the copy-on-read accessor is modelled separately (`respProp`) on the heap
model below. -/
structure RetResp where
  success : Bool
  msg : Val
  tb : Val
  resp : Val
deriving DecidableEq

/-- An envelope as a runtime value (used when an envelope is a payload). -/
def RetResp.toVal (r : RetResp) : Val :=
  Val.venv r.success r.msg r.tb r.resp

/-- The in-memory `File` buffer (source lines 7-34), used by `bad` to capture
the formatted trace. -/
structure File where
  str : String
  closed : Bool
  _readable : Bool
  _writable : Bool
deriving DecidableEq

/-- `File()`: fresh open, readable, writable, empty buffer. -/
def File.new : File :=
  ⟨"", false, true, true⟩

/-- `File.write` (source lines 21-24): append on an open writable file; a
closed or non-writable file hits a bare `raise` with no active exception,
which the host runtime turns into a RuntimeError. -/
def File.write (f : File) (data : String) : Except Exc File :=
  if f.closed || !f._writable then
    Except.error ⟨"RuntimeError", "No active exception to reraise"⟩
  else
    Except.ok ⟨f.str ++ data, f.closed, f._readable, f._writable⟩

/-- `File.read` (source lines 17-20): return the buffer of an open readable
file; otherwise the bare `raise` as in `write`. -/
def File.read (f : File) : Except Exc String :=
  if f.closed || !f._readable then
    Except.error ⟨"RuntimeError", "No active exception to reraise"⟩
  else
    Except.ok f.str

/-- Modelled from the host standard library: `traceback.print_exc` formats the
active exception as a trace text beginning with the header line
`Traceback (most recent call last):` followed by the exception itself. -/
def formatTrace (e : Exc) : String :=
  "Traceback (most recent call last):\n" ++ e.name ++ ": " ++ e.descr ++ "\n"

/-- `traceback.print_exc(file=sf)` in `bad`: write the formatted trace of the
active exception `e` into the file buffer. -/
def printExc (e : Exc) (f : File) : Except Exc File :=
  f.write (formatTrace e)

/-- `good()` (source lines 75-76). -/
def good : Bool × Val × Val :=
  (true, Val.vstr "Success", Val.vnone)

/-- `bad()` (source lines 78-81): print the active exception's trace into a
fresh `File` and return `(False, sys.exc_info()[1], sf.read())`. -/
def bad (e : Exc) : Except Exc (Bool × Val × Val) := do
  let sf := File.new
  let sf ← printExc e sf
  let tbs ← sf.read
  pure (false, Val.vexc e, Val.vstr tbs)

/-- `RetConfig` (source lines 62-68): the three optional global callbacks.
`fc` (on-failure fallback) receives unpacked positional arguments, `tc`
(on-task-complete) receives the task's raw result, `ec` (on-error) receives a
full envelope. A callback either returns (`Except.ok ()`) or raises. -/
structure RetConfig where
  fc : Option (List Val → Except Exc Unit)
  tc : Option (Val → Except Exc Unit)
  ec : Option (RetResp → Except Exc Unit)

/-- The all-empty configuration (`ret_conf` at process start, line 70). -/
def conf0 : RetConfig :=
  ⟨none, none, none⟩

/-- One recorded hook invocation, with the argument it received. -/
inductive Event where
  | onError : RetResp → Event
  | contCall : List Val → Event
  | fallback : List Val → Event
  | awaitFb : Event
deriving DecidableEq

/-- The trailing `*args` of `run` as dispatched on failure (source lines
93-98): absent, or a callable first argument followed by its own arguments,
or a plain (non-callable, iterable) first argument; further arguments after a
plain first one are ignored by the source. -/
inductive Trailing where
  | none : Trailing
  | callable : (List Val → Except Exc Unit) → List Val → Trailing
  | plain : List Val → List Val → Trailing

/-- The trailing `*args` of `run_async` (source lines 112-119): the source
checks for a coroutine first, then a callable, then falls through to the
plain case. The `coro` payload is the awaited outcome of the fallback
coroutine. -/
inductive TrailingA where
  | none : TrailingA
  | coro : Except Exc Val → TrailingA
  | callable : (List Val → Except Exc Unit) → List Val → TrailingA
  | plain : List Val → List Val → TrailingA

/-- The failure-continuation dispatch of `run` (source lines 93-98): if the
first trailing argument is callable, call it with the remaining trailing
arguments; otherwise, if `ret_conf.fc` is set, call it with the first trailing
argument unpacked. An exception raised by the hook propagates. -/
def dispatch (conf : RetConfig) (args : Trailing) (env : RetResp) :
    List Event × Except Exc RetResp :=
  match args with
  | Trailing.none => ([], Except.ok env)
  | Trailing.callable f rest =>
      match f rest with
      | Except.error e2 => ([Event.contCall rest], Except.error e2)
      | Except.ok _ => ([Event.contCall rest], Except.ok env)
  | Trailing.plain t _ =>
      match conf.fc with
      | some cb =>
          match cb t with
          | Except.error e2 => ([Event.fallback t], Except.error e2)
          | Except.ok _ => ([Event.fallback t], Except.ok env)
      | none => ([], Except.ok env)

/-- The shared body of `run` (source lines 83-100) and `run_async` (source
lines 102-120), which are line-for-line identical except for how the wrapped
work is invoked (`func(*fargs)` vs `await cor`, here the already-computed
`outcome`) and for the continuation dispatch (`disp`). On normal return,
`_ret = good()` and the envelope carries the return value; on an exception,
`_ret = bad()` while `_resp` is still `None` (the assignment
`_resp = func(*fargs)` never happened), then `ret_conf.ec` is called with
`RetResp(*_ret, _resp)` if set, then the trailing arguments are dispatched.
The first component is the trace of hook invocations; the second is the
returned envelope, or the exception a hook raised. -/
def runCore (conf : RetConfig) (outcome : Except Exc Val)
    (disp : RetResp → List Event × Except Exc RetResp) :
    List Event × Except Exc RetResp :=
  match outcome with
  | Except.ok v => ([], Except.ok ⟨good.1, good.2.1, good.2.2, v⟩)
  | Except.error e =>
      match bad e with
      | Except.error e2 => ([], Except.error e2)
      | Except.ok r =>
          let env : RetResp := ⟨r.1, r.2.1, r.2.2, Val.vnone⟩
          match conf.ec with
          | some cb =>
              match cb env with
              | Except.error e2 => ([Event.onError env], Except.error e2)
              | Except.ok _ =>
                  let d := disp env
                  (Event.onError env :: d.1, d.2)
          | none => disp env

/-- `run` (source lines 83-100): `func fargs` is the call `func(*fargs)`
(keyword arguments never reach `func`; `run` calls `func(*fargs)` only). -/
def run (conf : RetConfig) (func : List Val → Except Exc Val) (fargs : List Val)
    (args : Trailing) : List Event × Except Exc RetResp :=
  runCore conf (func fargs) (dispatch conf args)

/-- The failure-continuation dispatch of `run_async` (source lines 112-119):
a coroutine first trailing argument is awaited (its failure propagates), a
callable one is called, otherwise the plain case goes to `ret_conf.fc`. -/
def dispatchA (conf : RetConfig) (args : TrailingA) (env : RetResp) :
    List Event × Except Exc RetResp :=
  match args with
  | TrailingA.none => ([], Except.ok env)
  | TrailingA.coro o =>
      match o with
      | Except.error e2 => ([Event.awaitFb], Except.error e2)
      | Except.ok _ => ([Event.awaitFb], Except.ok env)
  | TrailingA.callable f rest =>
      match f rest with
      | Except.error e2 => ([Event.contCall rest], Except.error e2)
      | Except.ok _ => ([Event.contCall rest], Except.ok env)
  | TrailingA.plain t _ =>
      match conf.fc with
      | some cb =>
          match cb t with
          | Except.error e2 => ([Event.fallback t], Except.error e2)
          | Except.ok _ => ([Event.fallback t], Except.ok env)
      | none => ([], Except.ok env)

/-- `run_async` (source lines 102-120). `cor` is the awaited outcome of the
wrapped coroutine (`await cor`); the rest mirrors `run`. -/
def run_async (conf : RetConfig) (cor : Except Exc Val) (args : TrailingA) :
    List Event × Except Exc RetResp :=
  runCore conf cor (dispatchA conf args)

/-- One invocation of a `def_ret(*args)`-decorated function (source lines
122-128): `wrapper(*wargs, **wkwargs)` returns `run(func, wargs, *args)`.
The wrapper accepts keyword arguments `wkwargs` but never passes them on:
`run` receives only `wargs`, and calls `func(*fargs)` with no keywords, hence
`fun fa => func fa []`. The decoration-time trailing arguments are `dargs`. -/
def def_ret_call (conf : RetConfig)
    (func : List Val → List (String × Val) → Except Exc Val)
    (dargs : Trailing) (wargs : List Val) (wkwargs : List (String × Val)) :
    List Event × Except Exc RetResp :=
  run conf (fun fa => func fa []) wargs dargs

/-- One invocation of an `async_ret(*args)`-decorated coroutine function
(source lines 130-136): `wrapper(*wargs, **wkwargs)` awaits
`run_async(func(*wargs, **wkwargs), *args)` — here both positional and
keyword call-time arguments do reach `func`. -/
def async_ret_call (conf : RetConfig)
    (func : List Val → List (String × Val) → Except Exc Val)
    (dargs : TrailingA) (wargs : List Val) (wkwargs : List (String × Val)) :
    List Event × Except Exc RetResp :=
  run_async conf (func wargs wkwargs) dargs

/-- A coroutine object, identified by its awaited outcome. -/
structure Coro where
  outcome : Except Exc Val

/-- `getattr(task, "ret", False)` evaluated on a coroutine object (source
lines 154, 182). Coroutine objects of the host runtime accept no attribute
assignment and carry no attribute named `ret`: the decorators set
`wrapper.ret = True` on the wrapper function object, but calling the wrapper
produces a fresh coroutine object without it. The lookup therefore always
yields `False`. -/
def Coro.retAttr (_t : Coro) : Bool :=
  false

/-- The coroutine object produced by calling an `async_ret`-decorated
coroutine function: its awaited outcome is the envelope `async_ret_call`
returns (or the exception a hook raised). -/
def asyncRetTask (conf : RetConfig)
    (func : List Val → List (String × Val) → Except Exc Val)
    (dargs : TrailingA) (wargs : List Val) (wkwargs : List (String × Val)) :
    Coro :=
  ⟨(async_ret_call conf func dargs wargs wkwargs).2.map RetResp.toVal⟩

/-- The shared wrapping decision of `create_task` (lines 182-183) and
`wait_task` (lines 154-155): `if not getattr(task, "ret", False): task =
run_async(task)`. The wrapped task's awaited outcome is the envelope
`run_async` returns for the original outcome, with no trailing arguments. -/
def schedulerPrepare (conf : RetConfig) (task : Coro) : Coro :=
  if task.retAttr then task
  else ⟨(run_async conf task.outcome TrailingA.none).2.map RetResp.toVal⟩

/-- An index as handed to `RetResp.__getitem__` (source lines 49-55): an
integer (only the list positions 0-3 exist), a string (evaluated as an
attribute name, so only the four field names resolve), or any other value
(the source returns `None` for those). -/
inductive Ix where
  | pos : Nat → Ix
  | name : String → Ix
  | other : Ix

/-- `RetResp.__getitem__` (source lines 49-55): an integer indexes the list
`[self.success, self.msg, self.tb, self.resp]` (out of range raises
IndexError); a string is evaluated as `self.<string>`, which resolves for the
four field names and raises AttributeError otherwise; any other index returns
`None`. The `resp` accessor returns the payload (by value here; its
copy-on-read behaviour is the heap model below, and the copy is
value-equal to the stored payload). -/
def RetResp.getitem (r : RetResp) (i : Ix) : Except Exc Val :=
  match i with
  | Ix.pos n =>
      match [Val.vbool r.success, r.msg, r.tb, r.resp].get? n with
      | some v => Except.ok v
      | none => Except.error ⟨"IndexError", "list index out of range"⟩
  | Ix.name s =>
      if s = "success" then Except.ok (Val.vbool r.success)
      else if s = "msg" then Except.ok r.msg
      else if s = "tb" then Except.ok r.tb
      else if s = "resp" then Except.ok r.resp
      else Except.error ⟨"AttributeError", s⟩
  | Ix.other => Except.ok Val.vnone

/-- A mutable container object: the contents of one heap cell. `list` is a
sequence, `dict` a mapping — the two cases `RetResp.resp` copies. -/
inductive Cell where
  | list : List Val → Cell
  | dict : List (String × Val) → Cell
deriving DecidableEq

/-- A heap of container cells: `next` is the first unallocated address. -/
structure Heap where
  next : Nat
  cellAt : Nat → Cell

/-- Allocate a fresh cell holding `c`; returns its address. -/
def Heap.alloc (h : Heap) (c : Cell) : Nat × Heap :=
  (h.next, ⟨h.next + 1, fun n => if n = h.next then c else h.cellAt n⟩)

/-- Overwrite the cell at address `a`. -/
def Heap.setCell (h : Heap) (a : Nat) (c : Cell) : Heap :=
  ⟨h.next, fun n => if n = a then c else h.cellAt n⟩

/-- An in-place mutation of the container at address `a` (an element
assignment, an append, a key update, ...), expressed as an arbitrary
transformation of the cell's contents. -/
def Heap.mutateCell (h : Heap) (a : Nat) (f : Cell → Cell) : Heap :=
  h.setCell a (f (h.cellAt a))

/-- A stored payload in the heap model: either an immediate (non-container)
value or a reference to a container cell. -/
inductive HVal where
  | imm : Val → HVal
  | ref : Nat → HVal
deriving DecidableEq

/-- The `resp` property (source lines 43-47): `if type(self._resp) == list or
type(self._resp) == dict: return self._resp.copy()` — a container payload is
returned as a freshly allocated cell with the same contents (a shallow copy);
any other payload is returned as-is. -/
def respProp (h : Heap) (p : HVal) : HVal × Heap :=
  match p with
  | HVal.imm v => (HVal.imm v, h)
  | HVal.ref a =>
      let ah := h.alloc (h.cellAt a)
      (HVal.ref ah.1, ah.2)

/-! ### Derived notions used by the statements -/

/-- The envelope a supervisor returns when the wrapped work raised `e`. -/
def failEnv (e : Exc) : RetResp :=
  ⟨false, Val.vexc e, Val.vstr (formatTrace e), Val.vnone⟩

/-- The envelope a supervisor returns when the wrapped work returned `v`. -/
def successEnv (v : Val) : RetResp :=
  ⟨true, Val.vstr "Success", Val.vnone, v⟩

/-- The `onError` invocations a failed supervised execution performs: exactly
one, with the full failure envelope, when `ec` is set; none otherwise. -/
def ecEvents (conf : RetConfig) (e : Exc) : List Event :=
  match conf.ec with
  | some _ => [Event.onError (failEnv e)]
  | none => []

/-- The continuation invocations a failed `run` performs: the callable first
trailing argument with the remaining trailing arguments, else the `fc`
fallback with the first trailing argument tuple, else nothing. -/
def dispatchEvents (conf : RetConfig) (args : Trailing) : List Event :=
  match args with
  | Trailing.none => []
  | Trailing.callable _ rest => [Event.contCall rest]
  | Trailing.plain t _ =>
      match conf.fc with
      | some _ => [Event.fallback t]
      | none => []

/-- As `dispatchEvents`, for `run_async`. -/
def dispatchEventsA (conf : RetConfig) (args : TrailingA) : List Event :=
  match args with
  | TrailingA.none => []
  | TrailingA.coro _ => [Event.awaitFb]
  | TrailingA.callable _ rest => [Event.contCall rest]
  | TrailingA.plain t _ =>
      match conf.fc with
      | some _ => [Event.fallback t]
      | none => []

/-- A supervisor result that is a returned (not raised) envelope recording a
failure. -/
def isFailureEnvelope : Except Exc RetResp → Prop
  | Except.ok env => env.success = false
  | Except.error _ => False

/-- A value that is an exception object (what `sys.exc_info()[1]` yields). -/
def isExcVal : Val → Bool
  | Val.vexc _ => true
  | _ => false

/-- A value that is a non-empty string. -/
def nonEmptyStrVal : Val → Bool
  | Val.vstr s => decide (s ≠ "")
  | _ => false

/-! ### Concrete items used by the witnesses -/

/-- A sample exception (the one `test.py` raises). -/
def excA : Exc :=
  ⟨"Exception", "Failed"⟩

/-- A callable that always raises `excA`. -/
def raiseA : List Val → Except Exc Val :=
  fun _ => Except.error excA

/-- A callable that returns 3. -/
def const3 : List Val → Except Exc Val :=
  fun _ => Except.ok (Val.vint 3)

/-- An `onError` callback that returns. -/
def okEC : RetResp → Except Exc Unit :=
  fun _ => Except.ok ()

/-- A fallback callback that returns. -/
def okFC : List Val → Except Exc Unit :=
  fun _ => Except.ok ()

/-- A configuration with both failure hooks set (and returning). -/
def confH : RetConfig :=
  ⟨some okFC, none, some okEC⟩

/-- A callable observing its keyword arguments: returns how many keyword
arguments it was called with. -/
def kwCount : List Val → List (String × Val) → Except Exc Val :=
  fun _ kw => Except.ok (Val.vint kw.length)

/-- A one-cell heap whose cell 0 holds the list `[1]`. -/
def heap1 : Heap :=
  ⟨1, fun _ => Cell.list [Val.vint 1]⟩

/-! ### Basic lemmas about the embedding -/

theorem str_nil_append (s : String) : "" ++ s = s := by
  cases s
  rfl

/-- `bad` never raises: it prints the active exception's trace into a fresh
open buffer and reads it back. -/
theorem bad_eq (e : Exc) :
    bad e = Except.ok (false, Val.vexc e, Val.vstr (formatTrace e)) := by
  simp only [bad, printExc, File.write, File.read, File.new, str_nil_append]
  rfl

/-- The formatted trace always contains at least the header line. -/
theorem formatTrace_ne_empty (e : Exc) : formatTrace e ≠ "" := by
  intro h
  have hl := congrArg String.length h
  rw [formatTrace, String.length_append, String.length_append, String.length_append,
    String.length_append, String.length_empty] at hl
  have h35 : "Traceback (most recent call last):\n".length = 35 := rfl
  have h2 : ": ".length = 2 := rfl
  have h1 : "\n".length = 1 := rfl
  rw [h35, h2, h1] at hl
  omega

theorem runCore_ok (conf : RetConfig) (v : Val)
    (disp : RetResp → List Event × Except Exc RetResp) :
    runCore conf (Except.ok v) disp = ([], Except.ok (successEnv v)) :=
  rfl

/-- `runCore` on a failed outcome with no `onError` hook configured. -/
theorem runCore_error_noEc (conf : RetConfig) (e : Exc)
    (disp : RetResp → List Event × Except Exc RetResp) (h : conf.ec = none) :
    runCore conf (Except.error e) disp = disp (failEnv e) := by
  rw [runCore, bad_eq, h]
  rfl

/-- `runCore` on a failed outcome whose `onError` hook returns. -/
theorem runCore_error_ecOk (conf : RetConfig) (e : Exc)
    (disp : RetResp → List Event × Except Exc RetResp)
    (cb : RetResp → Except Exc Unit) (h : conf.ec = some cb)
    (hcb : cb (failEnv e) = Except.ok ()) :
    runCore conf (Except.error e) disp =
      (Event.onError (failEnv e) :: (disp (failEnv e)).1, (disp (failEnv e)).2) := by
  rw [runCore, bad_eq, h]
  have hcb' : cb ⟨false, Val.vexc e, Val.vstr (formatTrace e), Val.vnone⟩ = Except.ok () := hcb
  simp only [hcb']
  rfl

/-- `runCore` on a failed outcome whose `onError` hook raises: the hook's
exception propagates and the continuation dispatch never runs. -/
theorem runCore_error_ecRaise (conf : RetConfig) (e : Exc)
    (disp : RetResp → List Event × Except Exc RetResp)
    (cb : RetResp → Except Exc Unit) (e2 : Exc) (h : conf.ec = some cb)
    (hcb : cb (failEnv e) = Except.error e2) :
    runCore conf (Except.error e) disp =
      ([Event.onError (failEnv e)], Except.error e2) := by
  rw [runCore, bad_eq, h]
  have hcb' : cb ⟨false, Val.vexc e, Val.vstr (formatTrace e), Val.vnone⟩ = Except.error e2 := hcb
  simp only [hcb']
  rfl

/-- `dispatch` under hooks that return: its events are `dispatchEvents` and
it hands back the envelope. -/
theorem dispatch_ok (conf : RetConfig) (args : Trailing) (env : RetResp)
    (hcall : ∀ f rest, args = Trailing.callable f rest → f rest = Except.ok ())
    (hplain : ∀ t rest cb, args = Trailing.plain t rest → conf.fc = some cb →
      cb t = Except.ok ()) :
    dispatch conf args env = (dispatchEvents conf args, Except.ok env) := by
  cases args with
  | none => rfl
  | callable f rest =>
      rw [dispatch, hcall f rest rfl]
      rfl
  | plain t rest =>
      cases hfc : conf.fc with
      | none => simp [dispatch, dispatchEvents, hfc]
      | some cb => simp [dispatch, dispatchEvents, hfc, hplain t rest cb rfl hfc]

/-- As `dispatch_ok`, for the asynchronous dispatcher. -/
theorem dispatchA_ok (conf : RetConfig) (args : TrailingA) (env : RetResp)
    (hcoro : ∀ o, args = TrailingA.coro o → ∀ e2, o ≠ Except.error e2)
    (hcall : ∀ f rest, args = TrailingA.callable f rest → f rest = Except.ok ())
    (hplain : ∀ t rest cb, args = TrailingA.plain t rest → conf.fc = some cb →
      cb t = Except.ok ()) :
    dispatchA conf args env = (dispatchEventsA conf args, Except.ok env) := by
  cases args with
  | none => rfl
  | coro o =>
      cases o with
      | ok v => rfl
      | error e2 => exact absurd rfl (hcoro (Except.error e2) rfl e2)
  | callable f rest =>
      rw [dispatchA, hcall f rest rfl]
      rfl
  | plain t rest =>
      cases hfc : conf.fc with
      | none => simp [dispatchA, dispatchEventsA, hfc]
      | some cb => simp [dispatchA, dispatchEventsA, hfc, hplain t rest cb rfl hfc]

/-- `run` under a failing `func` when every hook that runs returns. -/
theorem run_error_ok (conf : RetConfig) (func : List Val → Except Exc Val)
    (fargs : List Val) (args : Trailing) (e : Exc)
    (hf : func fargs = Except.error e)
    (hec : ∀ cb env, conf.ec = some cb → cb env = Except.ok ())
    (hcall : ∀ f rest, args = Trailing.callable f rest → f rest = Except.ok ())
    (hplain : ∀ t rest cb, args = Trailing.plain t rest → conf.fc = some cb →
      cb t = Except.ok ()) :
    run conf func fargs args =
      (ecEvents conf e ++ dispatchEvents conf args, Except.ok (failEnv e)) := by
  rw [run, hf]
  cases hec2 : conf.ec with
  | none =>
      rw [runCore_error_noEc conf e _ hec2,
        dispatch_ok conf args (failEnv e) hcall hplain]
      simp [ecEvents, hec2]
  | some cb =>
      rw [runCore_error_ecOk conf e _ cb hec2 (hec cb (failEnv e) hec2),
        dispatch_ok conf args (failEnv e) hcall hplain]
      simp [ecEvents, hec2]

/-- `run_async` under a failing awaited outcome when every hook that runs
returns. -/
theorem run_async_error_ok (conf : RetConfig) (args : TrailingA) (e : Exc)
    (hec : ∀ cb env, conf.ec = some cb → cb env = Except.ok ())
    (hcoro : ∀ o, args = TrailingA.coro o → ∀ e2, o ≠ Except.error e2)
    (hcall : ∀ f rest, args = TrailingA.callable f rest → f rest = Except.ok ())
    (hplain : ∀ t rest cb, args = TrailingA.plain t rest → conf.fc = some cb →
      cb t = Except.ok ()) :
    run_async conf (Except.error e) args =
      (ecEvents conf e ++ dispatchEventsA conf args, Except.ok (failEnv e)) := by
  rw [run_async]
  cases hec2 : conf.ec with
  | none =>
      rw [runCore_error_noEc conf e _ hec2,
        dispatchA_ok conf args (failEnv e) hcoro hcall hplain]
      simp [ecEvents, hec2]
  | some cb =>
      rw [runCore_error_ecOk conf e _ cb hec2 (hec cb (failEnv e) hec2),
        dispatchA_ok conf args (failEnv e) hcoro hcall hplain]
      simp [ecEvents, hec2]

/-- The continuation dispatch hands back the envelope unchanged: an `ok`
result of `dispatch` is the envelope it was given. -/
theorem dispatch_ok_inv (conf : RetConfig) (args : Trailing) (env env2 : RetResp)
    (h : (dispatch conf args env).2 = Except.ok env2) : env2 = env := by
  cases args with
  | none => simp [dispatch] at h; exact h.symm
  | callable f rest =>
      cases hf : f rest with
      | error e2 => simp [dispatch, hf] at h
      | ok u => simp [dispatch, hf] at h; exact h.symm
  | plain t rest =>
      cases hfc : conf.fc with
      | none => simp [dispatch, hfc] at h; exact h.symm
      | some cb =>
          cases hcb : cb t with
          | error e2 => simp [dispatch, hfc, hcb] at h
          | ok u => simp [dispatch, hfc, hcb] at h; exact h.symm

/-- As `dispatch_ok_inv`, for the asynchronous dispatcher. -/
theorem dispatchA_ok_inv (conf : RetConfig) (args : TrailingA) (env env2 : RetResp)
    (h : (dispatchA conf args env).2 = Except.ok env2) : env2 = env := by
  cases args with
  | none => simp [dispatchA] at h; exact h.symm
  | coro o =>
      cases o with
      | error e2 => simp [dispatchA] at h
      | ok u => simp [dispatchA] at h; exact h.symm
  | callable f rest =>
      cases hf : f rest with
      | error e2 => simp [dispatchA, hf] at h
      | ok u => simp [dispatchA, hf] at h; exact h.symm
  | plain t rest =>
      cases hfc : conf.fc with
      | none => simp [dispatchA, hfc] at h; exact h.symm
      | some cb =>
          cases hcb : cb t with
          | error e2 => simp [dispatchA, hfc, hcb] at h
          | ok u => simp [dispatchA, hfc, hcb] at h; exact h.symm

/-- The continuation dispatch never invokes the `onError` hook. -/
theorem dispatch_no_onError (conf : RetConfig) (args : Trailing)
    (env env' : RetResp) : Event.onError env' ∉ (dispatch conf args env).1 := by
  cases args with
  | none => simp [dispatch]
  | callable f rest => cases hf : f rest <;> simp [dispatch, hf]
  | plain t rest =>
      cases hfc : conf.fc with
      | none => simp [dispatch, hfc]
      | some cb => cases hcb : cb t <;> simp [dispatch, hfc, hcb]

/-- As `dispatch_no_onError`, for the asynchronous dispatcher. -/
theorem dispatchA_no_onError (conf : RetConfig) (args : TrailingA)
    (env env' : RetResp) : Event.onError env' ∉ (dispatchA conf args env).1 := by
  cases args with
  | none => simp [dispatchA]
  | coro o => cases o <;> simp [dispatchA]
  | callable f rest => cases hf : f rest <;> simp [dispatchA, hf]
  | plain t rest =>
      cases hfc : conf.fc with
      | none => simp [dispatchA, hfc]
      | some cb => cases hcb : cb t <;> simp [dispatchA, hfc, hcb]

/-- Inversion for a returned envelope: it is the success envelope of the
work's value or the failure envelope of the work's exception. -/
theorem runCore_ok_inv (conf : RetConfig) (outcome : Except Exc Val)
    (disp : RetResp → List Event × Except Exc RetResp) (env : RetResp)
    (hdisp : ∀ env1 env2, (disp env1).2 = Except.ok env2 → env2 = env1)
    (h : (runCore conf outcome disp).2 = Except.ok env) :
    (∃ v, outcome = Except.ok v ∧ env = successEnv v)
    ∨ (∃ e, outcome = Except.error e ∧ env = failEnv e) := by
  cases outcome with
  | ok v =>
      left
      refine ⟨v, rfl, ?_⟩
      rw [runCore_ok] at h
      simpa using h.symm
  | error e =>
      right
      refine ⟨e, rfl, ?_⟩
      cases hec : conf.ec with
      | none =>
          rw [runCore_error_noEc conf e disp hec] at h
          exact hdisp _ _ h
      | some cb =>
          cases hcb : cb (failEnv e) with
          | error e2 =>
              rw [runCore_error_ecRaise conf e disp cb e2 hec hcb] at h
              simp at h
          | ok u =>
              have hu : cb (failEnv e) = Except.ok () := by
                cases u
                exact hcb
              rw [runCore_error_ecOk conf e disp cb hec hu] at h
              exact hdisp _ _ h

/-- Inversion for a recorded `onError` invocation: it happened on a failed
work outcome, and received exactly the failure envelope. -/
theorem runCore_onError_inv (conf : RetConfig) (outcome : Except Exc Val)
    (disp : RetResp → List Event × Except Exc RetResp) (env' : RetResp)
    (hno : ∀ env1, Event.onError env' ∉ (disp env1).1)
    (h : Event.onError env' ∈ (runCore conf outcome disp).1) :
    ∃ e, outcome = Except.error e ∧ env' = failEnv e := by
  cases outcome with
  | ok v =>
      rw [runCore_ok] at h
      simp at h
  | error e =>
      refine ⟨e, rfl, ?_⟩
      cases hec : conf.ec with
      | none =>
          rw [runCore_error_noEc conf e disp hec] at h
          exact absurd h (hno _)
      | some cb =>
          cases hcb : cb (failEnv e) with
          | error e2 =>
              rw [runCore_error_ecRaise conf e disp cb e2 hec hcb] at h
              simpa using h
          | ok u =>
              have hu : cb (failEnv e) = Except.ok () := by
                cases u
                exact hcb
              rw [runCore_error_ecOk conf e disp cb hec hu] at h
              rcases List.mem_cons.mp h with h1 | h2
              · simpa using h1
              · exact absurd h2 (hno _)

/-- A raising callable continuation: its exception is returned raised. -/
theorem dispatch_callable_raises (conf : RetConfig)
    (f : List Val → Except Exc Unit) (rest : List Val) (env : RetResp) (e2 : Exc)
    (hf2 : f rest = Except.error e2) :
    dispatch conf (Trailing.callable f rest) env
      = ([Event.contCall rest], Except.error e2) := by
  simp [dispatch, hf2]

/-- A raising `fc` fallback: its exception is returned raised. -/
theorem dispatch_fc_raises (conf : RetConfig) (t rest : List Val)
    (env : RetResp) (cb : List Val → Except Exc Unit) (e2 : Exc)
    (hfc : conf.fc = some cb) (hcb : cb t = Except.error e2) :
    dispatch conf (Trailing.plain t rest) env
      = ([Event.fallback t], Except.error e2) := by
  simp [dispatch, hfc, hcb]

/-- A raising awaited fallback coroutine: its exception is returned raised. -/
theorem dispatchA_coro_raises (conf : RetConfig) (env : RetResp) (e2 : Exc) :
    dispatchA conf (TrailingA.coro (Except.error e2)) env
      = ([Event.awaitFb], Except.error e2) :=
  rfl

/-- As `dispatch_callable_raises`, asynchronously. -/
theorem dispatchA_callable_raises (conf : RetConfig)
    (f : List Val → Except Exc Unit) (rest : List Val) (env : RetResp) (e2 : Exc)
    (hf2 : f rest = Except.error e2) :
    dispatchA conf (TrailingA.callable f rest) env
      = ([Event.contCall rest], Except.error e2) := by
  simp [dispatchA, hf2]

/-- As `dispatch_fc_raises`, asynchronously. -/
theorem dispatchA_fc_raises (conf : RetConfig) (t rest : List Val)
    (env : RetResp) (cb : List Val → Except Exc Unit) (e2 : Exc)
    (hfc : conf.fc = some cb) (hcb : cb t = Except.error e2) :
    dispatchA conf (TrailingA.plain t rest) env
      = ([Event.fallback t], Except.error e2) := by
  simp [dispatchA, hfc, hcb]

/-! ### The claims -/

/-- C1: for every callable `f` and argument tuple `a`, if `f(*a)` raises any
failure, `run` does not propagate it: it returns an envelope with
`succeeded = false`; likewise `run_async` never propagates the awaited work's
failure. Failures raised by the callbacks/fallback are outside the claim,
hence the hypotheses that every hook that runs returns. -/
theorem work_failure_never_propagates :
    (∀ (conf : RetConfig) (func : List Val → Except Exc Val) (fargs : List Val)
        (args : Trailing) (e : Exc),
      func fargs = Except.error e →
      (∀ cb env, conf.ec = some cb → cb env = Except.ok ()) →
      (∀ f rest, args = Trailing.callable f rest → f rest = Except.ok ()) →
      (∀ t rest cb, args = Trailing.plain t rest → conf.fc = some cb →
        cb t = Except.ok ()) →
      isFailureEnvelope (run conf func fargs args).2)
    ∧
    (∀ (conf : RetConfig) (args : TrailingA) (e : Exc),
      (∀ cb env, conf.ec = some cb → cb env = Except.ok ()) →
      (∀ o, args = TrailingA.coro o → ∀ e2, o ≠ Except.error e2) →
      (∀ f rest, args = TrailingA.callable f rest → f rest = Except.ok ()) →
      (∀ t rest cb, args = TrailingA.plain t rest → conf.fc = some cb →
        cb t = Except.ok ()) →
      isFailureEnvelope (run_async conf (Except.error e) args).2) := by
  constructor
  · intro conf func fargs args e hf hec hcall hplain
    rw [run_error_ok conf func fargs args e hf hec hcall hplain]
    exact rfl
  · intro conf args e hec hcoro hcall hplain
    rw [run_async_error_ok conf args e hec hcoro hcall hplain]
    exact rfl

theorem work_failure_never_propagates_w :
    isFailureEnvelope (run confH raiseA [] Trailing.none).2
    ∧ isFailureEnvelope (run_async confH (Except.error excA) TrailingA.none).2 :=
  ⟨work_failure_never_propagates.1 confH raiseA [] Trailing.none excA rfl
      (fun cb env h => by cases h; rfl)
      (fun f rest h => Trailing.noConfusion h)
      (fun t rest cb h => Trailing.noConfusion h),
    work_failure_never_propagates.2 confH TrailingA.none excA
      (fun cb env h => by cases h; rfl)
      (fun o h => TrailingA.noConfusion h)
      (fun f rest h => TrailingA.noConfusion h)
      (fun t rest cb h => TrailingA.noConfusion h)⟩

/-- C2: for a raising callable, `run` invokes the failure hooks each at most
once and in order — `ec` first, with the full failure envelope, then the
continuation: the callable first trailing argument with the remaining
trailing arguments (suppressing the fallback), else `fc` with the first
trailing argument tuple; on success, no hook at all. The event trace is
exactly `ecEvents` followed by `dispatchEvents`, which record one invocation
each, with those arguments. -/
theorem failure_hooks_once_in_order :
    (∀ (conf : RetConfig) (func : List Val → Except Exc Val) (fargs : List Val)
        (args : Trailing) (e : Exc),
      func fargs = Except.error e →
      (∀ cb env, conf.ec = some cb → cb env = Except.ok ()) →
      (∀ f rest, args = Trailing.callable f rest → f rest = Except.ok ()) →
      (∀ t rest cb, args = Trailing.plain t rest → conf.fc = some cb →
        cb t = Except.ok ()) →
      run conf func fargs args
        = (ecEvents conf e ++ dispatchEvents conf args, Except.ok (failEnv e)))
    ∧
    (∀ (conf : RetConfig) (func : List Val → Except Exc Val) (fargs : List Val)
        (args : Trailing) (v : Val),
      func fargs = Except.ok v →
      run conf func fargs args = ([], Except.ok (successEnv v))) := by
  constructor
  · intro conf func fargs args e hf hec hcall hplain
    exact run_error_ok conf func fargs args e hf hec hcall hplain
  · intro conf func fargs args v hf
    rw [run, hf, runCore_ok]

theorem failure_hooks_once_in_order_w :
    run confH raiseA [] (Trailing.plain [Val.vstr "func", Val.vstr "failed"] [])
      = ([Event.onError (failEnv excA),
          Event.fallback [Val.vstr "func", Val.vstr "failed"]],
        Except.ok (failEnv excA)) :=
  failure_hooks_once_in_order.1 confH raiseA []
    (Trailing.plain [Val.vstr "func", Val.vstr "failed"] []) excA rfl
    (fun cb env h => by cases h; rfl)
    (fun f rest h => Trailing.noConfusion h)
    (fun t rest cb h hfc => by cases h; cases hfc; rfl)

/-- C6: for every callable and argument tuple whose call returns normally
with value `v`, `run` returns an envelope with `succeeded = true`,
`message = "Success"`, `trace = nil` and `payload = v`. -/
theorem run_success_envelope (conf : RetConfig)
    (func : List Val → Except Exc Val) (fargs : List Val) (args : Trailing)
    (v : Val) (hf : func fargs = Except.ok v) :
    run conf func fargs args
      = ([], Except.ok ⟨true, Val.vstr "Success", Val.vnone, v⟩) := by
  rw [run, hf, runCore_ok]
  rfl

theorem run_success_envelope_w :
    run conf0 const3 [] Trailing.none
      = ([], Except.ok ⟨true, Val.vstr "Success", Val.vnone, Val.vint 3⟩) :=
  run_success_envelope conf0 const3 [] Trailing.none (Val.vint 3) rfl

/-- C5: in every envelope `run` or `run_async` returns, the trace and a
non-default message are set iff `succeeded` is false: on success the message
is `"Success"` and the trace is nil; on failure the message is the captured
exception object (in particular not the default `"Success"` string) and the
trace is a non-empty string. -/
theorem envelope_trace_message_iff_failure :
    (∀ (conf : RetConfig) (func : List Val → Except Exc Val) (fargs : List Val)
        (args : Trailing) (env : RetResp),
      (run conf func fargs args).2 = Except.ok env →
      (env.success = true → env.msg = Val.vstr "Success" ∧ env.tb = Val.vnone)
      ∧ (env.success = false →
          nonEmptyStrVal env.tb = true ∧ isExcVal env.msg = true
          ∧ env.msg ≠ Val.vstr "Success"))
    ∧
    (∀ (conf : RetConfig) (cor : Except Exc Val) (args : TrailingA)
        (env : RetResp),
      (run_async conf cor args).2 = Except.ok env →
      (env.success = true → env.msg = Val.vstr "Success" ∧ env.tb = Val.vnone)
      ∧ (env.success = false →
          nonEmptyStrVal env.tb = true ∧ isExcVal env.msg = true
          ∧ env.msg ≠ Val.vstr "Success")) := by
  constructor
  · intro conf func fargs args env h
    rcases runCore_ok_inv conf (func fargs) (dispatch conf args) env
        (dispatch_ok_inv conf args) h with ⟨v, _, henv⟩ | ⟨e, _, henv⟩
    · subst henv
      exact ⟨fun _ => ⟨rfl, rfl⟩, fun hfalse => by simp [successEnv] at hfalse⟩
    · subst henv
      refine ⟨fun htrue => by simp [failEnv] at htrue, fun _ => ⟨?_, rfl, ?_⟩⟩
      · exact decide_eq_true (formatTrace_ne_empty e)
      · intro hbad
        exact Val.noConfusion hbad
  · intro conf cor args env h
    rcases runCore_ok_inv conf cor (dispatchA conf args) env
        (dispatchA_ok_inv conf args) h with ⟨v, _, henv⟩ | ⟨e, _, henv⟩
    · subst henv
      exact ⟨fun _ => ⟨rfl, rfl⟩, fun hfalse => by simp [successEnv] at hfalse⟩
    · subst henv
      refine ⟨fun htrue => by simp [failEnv] at htrue, fun _ => ⟨?_, rfl, ?_⟩⟩
      · exact decide_eq_true (formatTrace_ne_empty e)
      · intro hbad
        exact Val.noConfusion hbad

theorem envelope_trace_message_iff_failure_w :
    ((failEnv excA).success = true →
      (failEnv excA).msg = Val.vstr "Success" ∧ (failEnv excA).tb = Val.vnone)
    ∧ ((failEnv excA).success = false →
      nonEmptyStrVal (failEnv excA).tb = true ∧ isExcVal (failEnv excA).msg = true
      ∧ (failEnv excA).msg ≠ Val.vstr "Success") :=
  envelope_trace_message_iff_failure.1 conf0 raiseA [] Trailing.none
    (failEnv excA) (by decide)

/-- C8: a failure raised while executing the failure continuation or the
fallback callback — including an awaited fallback coroutine in `run_async` —
is not caught by the supervisor: it propagates to the caller. (`ec`, which
runs first, is assumed to return where it is set.) -/
theorem fallback_failure_propagates :
    (∀ (conf : RetConfig) (func : List Val → Except Exc Val) (fargs : List Val)
        (f : List Val → Except Exc Unit) (rest : List Val) (e e2 : Exc),
      func fargs = Except.error e →
      (∀ cb env, conf.ec = some cb → cb env = Except.ok ()) →
      f rest = Except.error e2 →
      (run conf func fargs (Trailing.callable f rest)).2 = Except.error e2)
    ∧
    (∀ (conf : RetConfig) (func : List Val → Except Exc Val) (fargs : List Val)
        (t rest : List Val) (cb : List Val → Except Exc Unit) (e e2 : Exc),
      func fargs = Except.error e →
      (∀ cb2 env, conf.ec = some cb2 → cb2 env = Except.ok ()) →
      conf.fc = some cb → cb t = Except.error e2 →
      (run conf func fargs (Trailing.plain t rest)).2 = Except.error e2)
    ∧
    (∀ (conf : RetConfig) (e e2 : Exc),
      (∀ cb env, conf.ec = some cb → cb env = Except.ok ()) →
      (run_async conf (Except.error e)
        (TrailingA.coro (Except.error e2))).2 = Except.error e2)
    ∧
    (∀ (conf : RetConfig) (f : List Val → Except Exc Unit) (rest : List Val)
        (e e2 : Exc),
      (∀ cb env, conf.ec = some cb → cb env = Except.ok ()) →
      f rest = Except.error e2 →
      (run_async conf (Except.error e)
        (TrailingA.callable f rest)).2 = Except.error e2)
    ∧
    (∀ (conf : RetConfig) (t rest : List Val) (cb : List Val → Except Exc Unit)
        (e e2 : Exc),
      (∀ cb2 env, conf.ec = some cb2 → cb2 env = Except.ok ()) →
      conf.fc = some cb → cb t = Except.error e2 →
      (run_async conf (Except.error e)
        (TrailingA.plain t rest)).2 = Except.error e2) := by
  have core : ∀ (conf : RetConfig) (e : Exc)
      (disp : RetResp → List Event × Except Exc RetResp),
      (∀ cb env, conf.ec = some cb → cb env = Except.ok ()) →
      ∀ e2 evs, disp (failEnv e) = (evs, Except.error e2) →
      (runCore conf (Except.error e) disp).2 = Except.error e2 := by
    intro conf e disp hec e2 evs hd
    cases hec2 : conf.ec with
    | none => rw [runCore_error_noEc conf e disp hec2, hd]
    | some cb =>
        rw [runCore_error_ecOk conf e disp cb hec2 (hec cb (failEnv e) hec2), hd]
  refine ⟨?_, ?_, ?_, ?_, ?_⟩
  · intro conf func fargs f rest e e2 hf hec hf2
    rw [run, hf]
    exact core conf e _ hec e2 _ (dispatch_callable_raises conf f rest (failEnv e) e2 hf2)
  · intro conf func fargs t rest cb e e2 hf hec hfc hcb
    rw [run, hf]
    exact core conf e _ hec e2 _ (dispatch_fc_raises conf t rest (failEnv e) cb e2 hfc hcb)
  · intro conf e e2 hec
    rw [run_async]
    exact core conf e _ hec e2 _ (dispatchA_coro_raises conf (failEnv e) e2)
  · intro conf f rest e e2 hec hf2
    rw [run_async]
    exact core conf e _ hec e2 _ (dispatchA_callable_raises conf f rest (failEnv e) e2 hf2)
  · intro conf t rest cb e e2 hec hfc hcb
    rw [run_async]
    exact core conf e _ hec e2 _ (dispatchA_fc_raises conf t rest (failEnv e) cb e2 hfc hcb)

theorem fallback_failure_propagates_w :
    (run conf0 raiseA []
      (Trailing.callable (fun _ => Except.error ⟨"TypeError", "boom"⟩) [])).2
      = Except.error ⟨"TypeError", "boom"⟩
    ∧ (run_async conf0 (Except.error excA)
        (TrailingA.coro (Except.error ⟨"TypeError", "boom"⟩))).2
      = Except.error ⟨"TypeError", "boom"⟩ :=
  ⟨fallback_failure_propagates.1 conf0 raiseA []
      (fun _ => Except.error ⟨"TypeError", "boom"⟩) [] excA ⟨"TypeError", "boom"⟩
      rfl (fun _ _ h => Option.noConfusion h) rfl,
    fallback_failure_propagates.2.2.1 conf0 excA ⟨"TypeError", "boom"⟩
      (fun _ _ h => Option.noConfusion h)⟩

/-- C10: for every supervised execution that fails, the payload of the
returned envelope, and of the envelope handed to the `onError` callback, is
exactly nil: `_resp` is assigned only after the wrapped work has returned
normally. -/
theorem failure_payload_is_nil :
    (∀ (conf : RetConfig) (func : List Val → Except Exc Val) (fargs : List Val)
        (args : Trailing) (env : RetResp),
      (run conf func fargs args).2 = Except.ok env →
      env.success = false → env.resp = Val.vnone)
    ∧
    (∀ (conf : RetConfig) (func : List Val → Except Exc Val) (fargs : List Val)
        (args : Trailing) (env' : RetResp),
      Event.onError env' ∈ (run conf func fargs args).1 → env'.resp = Val.vnone)
    ∧
    (∀ (conf : RetConfig) (cor : Except Exc Val) (args : TrailingA)
        (env : RetResp),
      (run_async conf cor args).2 = Except.ok env →
      env.success = false → env.resp = Val.vnone)
    ∧
    (∀ (conf : RetConfig) (cor : Except Exc Val) (args : TrailingA)
        (env' : RetResp),
      Event.onError env' ∈ (run_async conf cor args).1 →
      env'.resp = Val.vnone) := by
  refine ⟨?_, ?_, ?_, ?_⟩
  · intro conf func fargs args env h hfail
    rcases runCore_ok_inv conf (func fargs) (dispatch conf args) env
        (dispatch_ok_inv conf args) h with ⟨v, _, henv⟩ | ⟨e, _, henv⟩
    · subst henv; simp [successEnv] at hfail
    · subst henv; rfl
  · intro conf func fargs args env' h
    rcases runCore_onError_inv conf (func fargs) (dispatch conf args) env'
        (fun env1 => dispatch_no_onError conf args env1 env') h with ⟨e, _, henv⟩
    subst henv; rfl
  · intro conf cor args env h hfail
    rcases runCore_ok_inv conf cor (dispatchA conf args) env
        (dispatchA_ok_inv conf args) h with ⟨v, _, henv⟩ | ⟨e, _, henv⟩
    · subst henv; simp [successEnv] at hfail
    · subst henv; rfl
  · intro conf cor args env' h
    rcases runCore_onError_inv conf cor (dispatchA conf args) env'
        (fun env1 => dispatchA_no_onError conf args env1 env') h with ⟨e, _, henv⟩
    subst henv; rfl

theorem failure_payload_is_nil_w :
    (failEnv excA).resp = Val.vnone :=
  failure_payload_is_nil.1 conf0 raiseA [] Trailing.none (failEnv excA)
    (by decide) rfl

/-- C3, failing input: a task produced by an `async_ret`-decorated callable
is pre-supervised — its awaited outcome is already an envelope — but the
`ret` marker lives on the wrapper function object, while the object handed to
`create_task`/`wait_task` is the coroutine produced by calling the wrapper,
which carries no attributes. `getattr(task, "ret", False)` is therefore
`False` and the scheduler wraps again: the scheduled task's outcome is an
envelope whose payload is itself an envelope. -/
theorem scheduler_double_wraps_presupervised :
    (asyncRetTask conf0 (fun _ _ => Except.ok (Val.vint 7))
        TrailingA.none [] []).retAttr = false
    ∧ (asyncRetTask conf0 (fun _ _ => Except.ok (Val.vint 7))
        TrailingA.none [] []).outcome
      = Except.ok (Val.venv true (Val.vstr "Success") Val.vnone (Val.vint 7))
    ∧ (schedulerPrepare conf0 (asyncRetTask conf0
        (fun _ _ => Except.ok (Val.vint 7)) TrailingA.none [] [])).outcome
      = Except.ok (Val.venv true (Val.vstr "Success") Val.vnone
          (Val.venv true (Val.vstr "Success") Val.vnone (Val.vint 7))) :=
  ⟨rfl, rfl, rfl⟩

/-- C4, counterexample: invoking a `def_ret`-decorated callable with a
keyword argument does not call the supervisor on the callable applied to
those call-time arguments — the keyword argument is dropped. `kwCount`
returns the number of keyword arguments it received: decorated and called
with one keyword argument it yields payload 0, while `kwCount` applied to
exactly those call-time arguments yields 1. -/
theorem def_ret_drops_kwargs_cex :
    def_ret_call conf0 kwCount Trailing.none [] [("k", Val.vnone)]
      ≠ run conf0 (fun fa => kwCount fa [("k", Val.vnone)]) [] Trailing.none
    ∧ def_ret_call conf0 kwCount Trailing.none [] [("k", Val.vnone)]
      = ([], Except.ok ⟨true, Val.vstr "Success", Val.vnone, Val.vint 0⟩)
    ∧ kwCount [] [("k", Val.vnone)] = Except.ok (Val.vint 1) := by
  exact ⟨by decide, by decide, rfl⟩

/-- C4 (amended): a `def_ret`-decorated callable calls the synchronous
supervisor on `f` applied to exactly the call-time positional arguments —
keyword arguments are accepted but dropped — plus the fixed trailing
arguments, and returns the supervisor's envelope; an `async_ret`-decorated
callable forwards both positional and keyword call-time arguments. -/
theorem decorated_call_forwards :
    (∀ (conf : RetConfig) (func : List Val → List (String × Val) → Except Exc Val)
        (dargs : Trailing) (wargs : List Val) (wkwargs : List (String × Val)),
      def_ret_call conf func dargs wargs wkwargs
        = run conf (fun fa => func fa []) wargs dargs)
    ∧
    (∀ (conf : RetConfig) (func : List Val → List (String × Val) → Except Exc Val)
        (dargs : Trailing) (wargs : List Val) (wkwargs : List (String × Val))
        (v : Val),
      func wargs [] = Except.ok v →
      def_ret_call conf func dargs wargs wkwargs
        = ([], Except.ok (successEnv v)))
    ∧
    (∀ (conf : RetConfig) (func : List Val → List (String × Val) → Except Exc Val)
        (dargs : Trailing) (wargs : List Val) (wkwargs : List (String × Val))
        (e : Exc),
      func wargs [] = Except.error e →
      (∀ cb env, conf.ec = some cb → cb env = Except.ok ()) →
      (∀ f rest, dargs = Trailing.callable f rest → f rest = Except.ok ()) →
      (∀ t rest cb, dargs = Trailing.plain t rest → conf.fc = some cb →
        cb t = Except.ok ()) →
      def_ret_call conf func dargs wargs wkwargs
        = (ecEvents conf e ++ dispatchEvents conf dargs, Except.ok (failEnv e)))
    ∧
    (∀ (conf : RetConfig) (func : List Val → List (String × Val) → Except Exc Val)
        (dargs : TrailingA) (wargs : List Val) (wkwargs : List (String × Val)),
      async_ret_call conf func dargs wargs wkwargs
        = run_async conf (func wargs wkwargs) dargs)
    ∧
    (∀ (conf : RetConfig) (func : List Val → List (String × Val) → Except Exc Val)
        (dargs : TrailingA) (wargs : List Val) (wkwargs : List (String × Val))
        (v : Val),
      func wargs wkwargs = Except.ok v →
      async_ret_call conf func dargs wargs wkwargs
        = ([], Except.ok (successEnv v))) := by
  refine ⟨fun _ _ _ _ _ => rfl, ?_, ?_, fun _ _ _ _ _ => rfl, ?_⟩
  · intro conf func dargs wargs wkwargs v hf
    show run conf (fun fa => func fa []) wargs dargs = _
    rw [run]
    show runCore conf (func wargs []) _ = _
    rw [hf, runCore_ok]
  · intro conf func dargs wargs wkwargs e hf hec hcall hplain
    exact run_error_ok conf (fun fa => func fa []) wargs dargs e hf hec hcall hplain
  · intro conf func dargs wargs wkwargs v hf
    show run_async conf (func wargs wkwargs) dargs = _
    rw [run_async, hf, runCore_ok]

theorem decorated_call_forwards_w :
    def_ret_call conf0 kwCount Trailing.none [Val.vint 5] [("k", Val.vnone)]
      = ([], Except.ok (successEnv (Val.vint 0)))
    ∧ async_ret_call conf0 kwCount TrailingA.none [Val.vint 5] [("k", Val.vnone)]
      = ([], Except.ok (successEnv (Val.vint 1))) :=
  ⟨decorated_call_forwards.2.1 conf0 kwCount Trailing.none [Val.vint 5]
      [("k", Val.vnone)] (Val.vint 0) rfl,
    decorated_call_forwards.2.2.2.2 conf0 kwCount TrailingA.none [Val.vint 5]
      [("k", Val.vnone)] (Val.vint 1) rfl⟩

/-- C9: indexing an envelope positionally with 0, 1, 2, 3 yields the same
value as indexing it by the name of the corresponding field, with positions
`(0, 1, 2, 3)` mapping to `(success, msg, tb, resp)` — the code-level names
of (succeeded, message, trace, payload). -/
theorem getitem_pos_matches_name (r : RetResp) :
    r.getitem (Ix.pos 0) = r.getitem (Ix.name "success")
    ∧ r.getitem (Ix.pos 1) = r.getitem (Ix.name "msg")
    ∧ r.getitem (Ix.pos 2) = r.getitem (Ix.name "tb")
    ∧ r.getitem (Ix.pos 3) = r.getitem (Ix.name "resp") :=
  ⟨rfl, rfl, rfl, rfl⟩

/-- C7: reading the `resp` accessor of a container payload returns a
defensive copy. The first read returns a fresh cell (address `h.next`) whose
contents equal the stored cell's; a second read returns another fresh cell
(address `h.next + 1`), again with equal contents; and after an arbitrary
in-place mutation `f` of the first returned container, both the stored
payload cell and the container returned by the other read still hold the
original contents. -/
theorem payload_copy_on_read (h : Heap) (a : Nat) (f : Cell → Cell)
    (ha : a < h.next) :
    (respProp h (HVal.ref a)).1 = HVal.ref h.next
    ∧ ((respProp h (HVal.ref a)).2).cellAt h.next = h.cellAt a
    ∧ (respProp ((respProp h (HVal.ref a)).2) (HVal.ref a)).1
        = HVal.ref (h.next + 1)
    ∧ ((respProp ((respProp h (HVal.ref a)).2) (HVal.ref a)).2).cellAt
        (h.next + 1) = h.cellAt a
    ∧ (((respProp ((respProp h (HVal.ref a)).2) (HVal.ref a)).2).mutateCell
        h.next f).cellAt a = h.cellAt a
    ∧ (((respProp ((respProp h (HVal.ref a)).2) (HVal.ref a)).2).mutateCell
        h.next f).cellAt (h.next + 1) = h.cellAt a := by
  have hne : a ≠ h.next := Nat.ne_of_lt ha
  have hne1 : a ≠ h.next + 1 := by omega
  have hne2 : h.next + 1 ≠ h.next := by omega
  refine ⟨rfl, ?_, rfl, ?_, ?_, ?_⟩ <;>
    simp [respProp, Heap.alloc, Heap.mutateCell, Heap.setCell, hne, hne1, hne2]

theorem payload_copy_on_read_w :
    (respProp heap1 (HVal.ref 0)).1 = HVal.ref heap1.next
    ∧ ((respProp heap1 (HVal.ref 0)).2).cellAt heap1.next = heap1.cellAt 0
    ∧ (respProp ((respProp heap1 (HVal.ref 0)).2) (HVal.ref 0)).1
        = HVal.ref (heap1.next + 1)
    ∧ ((respProp ((respProp heap1 (HVal.ref 0)).2) (HVal.ref 0)).2).cellAt
        (heap1.next + 1) = heap1.cellAt 0
    ∧ (((respProp ((respProp heap1 (HVal.ref 0)).2) (HVal.ref 0)).2).mutateCell
        heap1.next (fun _ => Cell.list [])).cellAt 0 = heap1.cellAt 0
    ∧ (((respProp ((respProp heap1 (HVal.ref 0)).2) (HVal.ref 0)).2).mutateCell
        heap1.next (fun _ => Cell.list [])).cellAt (heap1.next + 1)
      = heap1.cellAt 0 :=
  payload_copy_on_read heap1 0 (fun _ => Cell.list []) (by decide)

end RetTools
